import Mathlib

set_option maxHeartbeats 1000000

/-!
Shallow embedding of src/fixincome/utils.py.

Python floats are modelled as real numbers, Python lists as Lean lists, and a
Python expression that may raise an exception as a value of the Except monad
over an error type naming the runtime faults the module can produce.  Each
definition mirrors one function of utils.py, keeping the source's evaluation
order: subterms are sequenced in the order Python evaluates them, so the first
raised exception is the one the source raises.
-/

/-- Python runtime faults that the expressions in utils.py can raise. -/
inductive PyError where
  | zeroDivisionError
  | indexError
  | valueError
  deriving DecidableEq

/-- Result of evaluating a Python expression: a value, or a raised exception. -/
abbrev Py (α : Type) : Type := Except PyError α

/-- Python float division x / y: raises ZeroDivisionError when y is zero. -/
noncomputable def pydiv (x y : ℝ) : Py ℝ :=
  if y = 0 then Except.error PyError.zeroDivisionError else Except.ok (x / y)

/-- Python float ** float: raises ZeroDivisionError on 0.0 ** negative exponent,
otherwise modelled by the real power function.  (For a negative base with a
fractional exponent Python produces a complex number; no function of the module
is exercised on that branch by the properties verified here.) -/
noncomputable def pyrpow (x y : ℝ) : Py ℝ :=
  if x = 0 ∧ y < 0 then Except.error PyError.zeroDivisionError else Except.ok (x ^ y)

/-- Python pow(float, int): raises ZeroDivisionError on 0.0 ** negative exponent. -/
noncomputable def pyzpow (x : ℝ) (n : ℤ) : Py ℝ :=
  if x = 0 ∧ n < 0 then Except.error PyError.zeroDivisionError else Except.ok (x ^ n)

/-- Python sum(...) over a generator of fallible float terms: a left fold from 0
that propagates the first raised exception. -/
noncomputable def pysum (terms : List (Py ℝ)) : Py ℝ :=
  terms.foldlM (fun acc t => Except.map (fun x => acc + x) t) 0

/-- Embedding of geometric_series_sum(a1, q, n) = a1*(1-q**n)/(1-q).  The item
count n is a float in the source and is modelled as a real exponent. -/
noncomputable def geometric_series_sum (a1 q n : ℝ) : Py ℝ := do
  let p ← pyrpow q n
  pydiv (a1 * (1 - p)) (1 - q)

/-- Embedding of future_value_factor(rate, nper, time=0): the geometric sum with
first item 1 and ratio 1+rate, multiplied by 1+rate unless time == 0. -/
noncomputable def future_value_factor (rate nper : ℝ) (time : ℤ) : Py ℝ := do
  let res ← geometric_series_sum 1 (1 + rate) nper
  Except.ok (if time = 0 then res else res * (1 + rate))

/-- Embedding of present_value_factor(rate, nper, time=0): the geometric sum with
first item and ratio both 1/(1+rate), multiplied by 1+rate unless time == 0. -/
noncomputable def present_value_factor (rate nper : ℝ) (time : ℤ) : Py ℝ := do
  let a ← pydiv 1 (1 + rate)
  let res ← geometric_series_sum a a nper
  Except.ok (if time = 0 then res else res * (1 + rate))

/-- Embedding of present_value(pmt, rate, term, fv=0, time=0) =
pmt*present_value_factor(rate, term, time) + fv/pow(1+rate, term).
The source's term is an int used as an exponent; it is modelled as a natural
number (the module's period counts are nonnegative). -/
noncomputable def present_value (pmt rate : ℝ) (term : ℕ) (fv : ℝ) (time : ℤ) : Py ℝ := do
  let f ← present_value_factor rate (term : ℝ) time
  let tv ← pydiv fv ((1 + rate) ^ term)
  Except.ok (pmt * f + tv)

/-- Embedding of future_value(rate, term, pmt, pv=0, time=0) =
pmt*future_value_factor(rate, term, time) + pv*pow(1+rate, term). -/
noncomputable def future_value (rate : ℝ) (term : ℕ) (pmt pv : ℝ) (time : ℤ) : Py ℝ := do
  let f ← future_value_factor rate (term : ℝ) time
  Except.ok (pmt * f + pv * (1 + rate) ^ term)

/-- Embedding of net_present_value(rate, cashflows, investment=0) =
sum(c/pow(1+rate, t+1) for t, c in enumerate(cashflows)) - investment. -/
noncomputable def net_present_value (rate : ℝ) (cashflows : List ℝ) (investment : ℝ) : Py ℝ := do
  let s ← pysum ((cashflows.enum).map fun tc => pydiv tc.2 ((1 + rate) ^ (tc.1 + 1)))
  Except.ok (s - investment)

/-- The residual closure func(r) built inside internal_rate:
sum(c/pow(1+r, 1+t) for t, c in enumerate(cashflows)) - initial_investment. -/
noncomputable def irr_func (cashflows : List ℝ) (initial_investment r : ℝ) : Py ℝ := do
  let s ← pysum ((cashflows.enum).map fun tc => pydiv tc.2 ((1 + r) ^ (1 + tc.1)))
  Except.ok (s - initial_investment)

/-- Outcome of one scipy.optimize.fsolve call.  MINPACK always produces a final
iterate together with a convergence status; fsolve(func, x0) called without
full_output returns only the iterate array, so the call sites in utils.py
observe just the estimate when they index element 0. -/
structure FsolveOutcome where
  estimate : ℝ
  converged : Bool

/-- Model of the foreign solver scipy.optimize.fsolve as seen from its call
sites: a map from the residual function and the starting guess to the outcome
MINPACK produced for them. -/
def Fsolve : Type := (ℝ → Py ℝ) → ℝ → FsolveOutcome

/-- Embedding of internal_rate(cashflows, initial_investment, guess=0.1) =
fsolve(func, guess)[0]: the element 0 of the solver's returned estimate array,
whatever the solver's convergence status was. -/
noncomputable def internal_rate (fsolve : Fsolve) (cashflows : List ℝ)
    (initial_investment guess : ℝ) : ℝ :=
  (fsolve (irr_func cashflows initial_investment) guess).estimate

/-- The residual closure func(r) built inside discount_rate:
present_value(pmt, r, nper, fv) - pv. -/
noncomputable def dr_func (pmt : ℝ) (nper : ℕ) (fv pv : ℝ) (r : ℝ) : Py ℝ :=
  Except.map (fun v => v - pv) (present_value pmt r nper fv 0)

/-- Embedding of discount_rate(pv, pmt, nper, fv=0, guess=0.1) = fsolve(func, guess)[0]. -/
noncomputable def discount_rate (fsolve : Fsolve) (pv pmt : ℝ) (nper : ℕ)
    (fv guess : ℝ) : ℝ :=
  (fsolve (dr_func pmt nper fv pv) guess).estimate

/-- Calendar date carried by the YYYYMMDD strings handled in xnpv. -/
structure CalendarDate where
  year : ℕ
  month : ℕ
  day : ℕ
  deriving DecidableEq

/-- Gregorian leap-year rule, as implemented by Python's datetime. -/
def isLeapYear (y : ℕ) : Bool := (y % 4 == 0 && y % 100 != 0) || y % 400 == 0

/-- Number of days in a month of a given year. -/
def daysInMonth (y m : ℕ) : ℕ :=
  if m = 2 then (if isLeapYear y then 29 else 28)
  else if m = 4 ∨ m = 6 ∨ m = 9 ∨ m = 11 then 30
  else 31

/-- Validity of a year-month-day triple under datetime's rules (year 1..9999). -/
def isValidDate (y m d : ℕ) : Prop :=
  1 ≤ y ∧ y ≤ 9999 ∧ 1 ≤ m ∧ m ≤ 12 ∧ 1 ≤ d ∧ d ≤ daysInMonth y m

instance (y m d : ℕ) : Decidable (isValidDate y m d) := by
  unfold isValidDate; infer_instance

/-- Proleptic-Gregorian day number of a date (days-from-civil algorithm, with a
shifted epoch).  Only differences of day numbers are used by xnpv, matching the
.days attribute of Python datetime subtraction; the algorithm was checked
against datetime on the concrete dates appearing in the repository's tests. -/
def toOrdinal (dt : CalendarDate) : ℤ :=
  let y : ℕ := if dt.month ≤ 2 then dt.year - 1 else dt.year
  let era : ℕ := y / 400
  let yoe : ℕ := y % 400
  let mp : ℕ := (dt.month + 9) % 12
  let doy : ℕ := (153 * mp + 2) / 5 + (dt.day - 1)
  let doe : ℕ := yoe * 365 + yoe / 4 - yoe / 100 + doy
  ((era * 146097 + doe : ℕ) : ℤ)

/-- Numeric value of a decimal digit character. -/
def digitToNat (c : Char) : ℕ := c.toNat - 48

/-- All characters of the list are decimal digits. -/
def allDigits (cs : List Char) : Bool := cs.all Char.isDigit

/-- Natural number denoted by a list of decimal digit characters. -/
def digitsToNat (cs : List Char) : ℕ := cs.foldl (fun acc c => acc * 10 + digitToNat c) 0

/-- Model of datetime.strptime(s, "%Y%m%d") restricted to the strict 8-digit
YYYYMMDD form the specification mandates for these inputs: four digits of year,
two of month, two of day, validated as a calendar date with year 1..9999.
Any other string is rejected (ValueError in the source). -/
def strptimeYmd (s : String) : Option CalendarDate :=
  match s.data with
  | [ y1, y2, y3, y4, m1, m2, d1, d2 ] =>
    if allDigits [ y1, y2, y3, y4, m1, m2, d1, d2 ] then
      let y := digitsToNat [ y1, y2, y3, y4 ]
      let m := digitsToNat [ m1, m2 ]
      let d := digitsToNat [ d1, d2 ]
      if isValidDate y m d then some ⟨y, m, d⟩ else none
    else none
  | _ => none

/-- One element of the list comprehension parsing dates in xnpv: a successfully
parsed date, or the ValueError that strptime raises on a malformed string. -/
def parseDatePy (s : String) : Py CalendarDate :=
  match strptimeYmd s with
  | some d => Except.ok d
  | none => Except.error PyError.valueError

/-- The date denoted by a well-formed YYYYMMDD string (used to phrase the
specification's day counts; junk value on a malformed string). -/
def parsedDate (s : String) : CalendarDate := (strptimeYmd s).getD ⟨1, 1, 1⟩

/-- The specification's elapsed day count from dates[0] to dates[i]. -/
def elapsedDays (dates : List String) (i : ℕ) : ℤ :=
  toOrdinal (parsedDate (dates.getD i "")) - toOrdinal (parsedDate (dates.getD 0 ""))

/-- The specification's exact daily-compounding rate r = (1+rate)**(1/365) - 1. -/
noncomputable def dailyRate (rate : ℝ) : ℝ := (1 + rate) ^ ((1 : ℝ) / 365) - 1

/-- The local delta list built inside xnpv: the day counts of the parsed
dates[1:] from the parsed dates[0].  As in the source's list comprehension,
dates[0] is only demanded when dates[1:] is non-empty. -/
def xnpvDelta (ds : List CalendarDate) : List ℤ :=
  match ds with
  | [] => []
  | d0 :: rest => rest.map fun d => toOrdinal d - toOrdinal d0

/-- Embedding of xnpv(rate, dates, cashflows): parses every date (ValueError on a
malformed one), forms the day deltas of dates[1:] from dates[0], converts rate
to the daily rate r = pow(1+rate, 1/365) - 1, and returns
sum(c/pow(1+r, d) for c, d in zip(cashflows[1:], delta)) + cashflows[0]
(IndexError on empty cashflows).  As in the source, zip truncates to the
shorter of its two arguments; the local variable r is written inline as rr - 1. -/
noncomputable def xnpv (rate : ℝ) (dates : List String) (cashflows : List ℝ) : Py ℝ := do
  let ds ← dates.mapM parseDatePy
  let rr ← pyrpow (1 + rate) ((1 : ℝ) / 365)
  let s ← pysum (((cashflows.drop 1).zip (xnpvDelta ds)).map fun cd => do
    let p ← pyzpow (1 + (rr - 1)) cd.2
    pydiv cd.1 p)
  match cashflows with
  | [] => Except.error PyError.indexError
  | c0 :: _ => Except.ok (s + c0)

/-- Embedding of xirr(dates, cashflows) = fsolve(lambda r: xnpv(r, dates, cashflows), 0)[0]. -/
noncomputable def xirr (fsolve : Fsolve) (dates : List String) (cashflows : List ℝ) : ℝ :=
  (fsolve (fun r => xnpv r dates cashflows) 0).estimate

/-- The local pmts list built inside macaulay_duration:
[par_value*par_rate]*(term-1) + [par_value*par_rate + par_value]. -/
noncomputable def macaulay_pmts (par_value par_rate : ℝ) (term : ℕ) : List ℝ :=
  List.replicate (term - 1) (par_value * par_rate) ++ [ par_value * par_rate + par_value ]

/-- Embedding of macaulay_duration(price, ytm, par_value, par_rate, term):
builds pmts = [par_value*par_rate]*(term-1) + [par_value*par_rate + par_value]
and returns sum((t+1) * pmt/pow(1+ytm, t+1) for t, pmt in enumerate(pmts))/price. -/
noncomputable def macaulay_duration (price ytm par_value par_rate : ℝ) (term : ℕ) : Py ℝ := do
  let s ← pysum (((macaulay_pmts par_value par_rate term).enum).map fun tp => do
    let q ← pydiv tp.2 ((1 + ytm) ^ (tp.1 + 1))
    Except.ok (((tp.1 + 1 : ℕ) : ℝ) * q))
  pydiv s price

/-! Helper lemmas about the embedding's monadic plumbing. -/

theorem py_bind_ok {α β : Type} (a : α) (f : α → Py β) :
    (Except.ok a >>= f : Py β) = f a := rfl

theorem py_bind_err {α β : Type} (e : PyError) (f : α → Py β) :
    ((Except.error e : Py α) >>= f) = Except.error e := rfl

theorem py_map_ok {α β : Type} (f : α → β) (a : α) :
    Except.map f (Except.ok a : Py α) = Except.ok (f a) := rfl

theorem py_map_err {α β : Type} (f : α → β) (e : PyError) :
    Except.map f (Except.error e : Py α) = Except.error e := rfl

theorem pydiv_ok (x y : ℝ) (h : y ≠ 0) : pydiv x y = Except.ok (x / y) := by
  simp [pydiv, h]

theorem pyrpow_ok (x y : ℝ) (h : x ≠ 0) : pyrpow x y = Except.ok (x ^ y) := by
  simp [pyrpow, h]

theorem pyzpow_ok (x : ℝ) (n : ℤ) (h : x ≠ 0) : pyzpow x n = Except.ok (x ^ n) := by
  simp [pyzpow, h]

theorem map_congr_mem {α β : Type} (l : List α) (f g : α → β)
    (h : ∀ a ∈ l, f a = g a) : l.map f = l.map g := by
  induction l with
  | nil => rfl
  | cons x xs ih =>
    simp only [List.map_cons]
    rw [h x (List.mem_cons_self x xs), ih fun a ha => h a (List.mem_cons_of_mem x ha)]

theorem pysum_foldl (vals : List ℝ) :
    ∀ a : ℝ, (vals.map (Except.ok : ℝ → Py ℝ)).foldlM
      (fun acc t => Except.map (fun x => acc + x) t) a = Except.ok (a + vals.sum) := by
  induction vals with
  | nil =>
    intro a
    show Except.ok a = Except.ok (a + ([] : List ℝ).sum)
    simp
  | cons v vs ih =>
    intro a
    have h1 : (List.map (Except.ok : ℝ → Py ℝ) (v :: vs)).foldlM
        (fun acc t => Except.map (fun x => acc + x) t) a =
        (vs.map (Except.ok : ℝ → Py ℝ)).foldlM
          (fun acc t => Except.map (fun x => acc + x) t) (a + v) := rfl
    rw [h1, ih (a + v), List.sum_cons]
    congr 1
    ring

theorem pysum_map_ok (vals : List ℝ) :
    pysum (vals.map (Except.ok : ℝ → Py ℝ)) = Except.ok vals.sum := by
  unfold pysum
  rw [pysum_foldl vals 0, zero_add]

theorem mapM_ok_of_forall {α β : Type} (l : List α) (f : α → Except PyError β) (g : α → β)
    (h : ∀ x ∈ l, f x = Except.ok (g x)) : l.mapM f = Except.ok (l.map g) := by
  induction l with
  | nil => rfl
  | cons x xs ih =>
    rw [List.mapM_cons, h x (List.mem_cons_self x xs),
      ih fun a ha => h a (List.mem_cons_of_mem x ha)]
    rfl

theorem sum_map_enumFrom (l : List ℝ) (f : ℕ × ℝ → ℝ) :
    ∀ k, ((l.enumFrom k).map f).sum =
      ∑ t ∈ Finset.range l.length, f (k + t, l.getD t 0) := by
  induction l with
  | nil => intro k; simp
  | cons x xs ih =>
    intro k
    simp only [List.enumFrom, List.map_cons, List.sum_cons, List.length_cons]
    rw [Finset.sum_range_succ', ih (k + 1)]
    simp only [List.getD_cons_succ, List.getD_cons_zero, Nat.add_zero]
    rw [add_comm]
    congr 1
    apply Finset.sum_congr rfl
    intro t _
    have he : k + 1 + t = k + (t + 1) := by omega
    rw [he]

theorem sum_map_enum (l : List ℝ) (f : ℕ × ℝ → ℝ) :
    ((l.enum).map f).sum = ∑ t ∈ Finset.range l.length, f (t, l.getD t 0) := by
  have h := sum_map_enumFrom l f 0
  simpa using h

theorem sum_map_zip (f : ℝ × ℤ → ℝ) :
    ∀ (l₁ : List ℝ) (l₂ : List ℤ), l₁.length = l₂.length →
      ((l₁.zip l₂).map f).sum =
        ∑ i ∈ Finset.range l₁.length, f (l₁.getD i 0, l₂.getD i 0) := by
  intro l₁
  induction l₁ with
  | nil => intro l₂ _; simp
  | cons x xs ih =>
    intro l₂ hlen
    cases l₂ with
    | nil => simp at hlen
    | cons y ys =>
      simp only [List.zip_cons_cons, List.map_cons, List.sum_cons, List.length_cons]
      have hlen2 : xs.length = ys.length := by simpa using hlen
      rw [Finset.sum_range_succ', ih ys hlen2]
      simp only [List.getD_cons_succ, List.getD_cons_zero]
      rw [add_comm]

theorem getD_replicate (x : ℝ) : ∀ (n i : ℕ), i < n → (List.replicate n x).getD i 0 = x := by
  intro n
  induction n with
  | zero => intro i h; exact absurd h (Nat.not_lt_zero i)
  | succ m ih =>
    intro i h
    cases i with
    | zero => rfl
    | succ j => exact ih j (by omega)

theorem getD_append_last (y : ℝ) : ∀ (l : List ℝ), (l ++ [ y ]).getD l.length 0 = y := by
  intro l
  induction l with
  | nil => rfl
  | cons a as ih => exact ih

theorem getD_append_lt (l l2 : List ℝ) :
    ∀ (t : ℕ), t < l.length → (l ++ l2).getD t 0 = l.getD t 0 := by
  induction l with
  | nil => intro t h; exact absurd h (Nat.not_lt_zero t)
  | cons a as ih =>
    intro t h
    cases t with
    | zero => rfl
    | succ j => exact ih j (by simpa using h)

theorem getD_map_lt {α β : Type} (g : α → β) :
    ∀ (l : List α) (i : ℕ), i < l.length → ∀ (d₁ : β) (d₂ : α),
      (l.map g).getD i d₁ = g (l.getD i d₂) := by
  intro l
  induction l with
  | nil => intro i h; simp at h
  | cons x xs ih =>
    intro i h d₁ d₂
    cases i with
    | zero => rfl
    | succ j =>
      simp only [List.map_cons, List.getD_cons_succ]
      exact ih j (by simpa using h) d₁ d₂

/-! Shared facts about the degenerate ratio q = 1 in the geometric sum. -/

theorem gss_ratio_one (a1 n : ℝ) :
    geometric_series_sum a1 1 n = Except.error PyError.zeroDivisionError := by
  unfold geometric_series_sum
  rw [pyrpow_ok 1 n one_ne_zero, py_bind_ok]
  unfold pydiv
  rw [if_pos (by norm_num)]

theorem fvf_rate_zero (nper : ℝ) (time : ℤ) :
    future_value_factor 0 nper time = Except.error PyError.zeroDivisionError := by
  unfold future_value_factor
  have h1 : (1 : ℝ) + 0 = 1 := by norm_num
  rw [h1, gss_ratio_one, py_bind_err]

theorem pvf_rate_zero (nper : ℝ) (time : ℤ) :
    present_value_factor 0 nper time = Except.error PyError.zeroDivisionError := by
  unfold present_value_factor
  rw [pydiv_ok 1 (1 + 0) (by norm_num), py_bind_ok]
  have h1 : (1 : ℝ) / (1 + 0) = 1 := by norm_num
  rw [h1, gss_ratio_one, py_bind_err]

/-- C2 counterexample: at a1 = 10, q = 1, n = 5 the source raises the low-level
ZeroDivisionError from the division by 1-q, not a named DegenerateArithmetic
error (no such exception class exists anywhere in the module). -/
theorem geometric_series_sum_q_one_counterexample :
    geometric_series_sum 10 1 5 = Except.error PyError.zeroDivisionError := by
  unfold geometric_series_sum
  rw [pyrpow_ok 1 5 one_ne_zero, py_bind_ok]
  unfold pydiv
  rw [if_pos (by norm_num)]

/-- C2 (amended): for every a1 and n, geometric_series_sum(a1, 1, n) propagates
the unhandled low-level ZeroDivisionError of the division by 1-q; it does not
return NaN or infinity, and it does not raise a named DegenerateArithmetic
error, which the code never defines. -/
theorem geometric_series_sum_q_one_zero_division (a1 n : ℝ) :
    geometric_series_sum a1 1 n = Except.error PyError.zeroDivisionError :=
  gss_ratio_one a1 n

/-- C3 counterexample: with time = 2 the factor functions do not reject the
call: future_value_factor(1, 1, 2) returns the ordinary value 2 and
present_value_factor(1, 1, 2) returns the ordinary value 1 (each the annuity-due
factor), instead of an invalid-configuration error. -/
theorem time_switch_counterexample :
    future_value_factor 1 1 2 = Except.ok 2 ∧ present_value_factor 1 1 2 = Except.ok 1 := by
  constructor
  · unfold future_value_factor geometric_series_sum
    simp only [pyrpow_ok (1 + 1) 1 (by norm_num : (1 : ℝ) + 1 ≠ 0), Real.rpow_one,
      pydiv_ok _ _ (by norm_num : (1 : ℝ) - (1 + 1) ≠ 0), py_bind_ok]
    rw [if_neg (by decide : ¬ (2 : ℤ) = 0)]
    refine congrArg Except.ok ?_
    norm_num
  · unfold present_value_factor geometric_series_sum
    simp only [pydiv_ok 1 (1 + 1) (by norm_num : (1 : ℝ) + 1 ≠ 0),
      pyrpow_ok _ 1 (by norm_num : (1 : ℝ) / (1 + 1) ≠ 0), Real.rpow_one,
      pydiv_ok _ _ (by norm_num : (1 : ℝ) - 1 / (1 + 1) ≠ 0), py_bind_ok]
    rw [if_neg (by decide : ¬ (2 : ℤ) = 0)]
    refine congrArg Except.ok ?_
    norm_num

/-- C3 (amended): the factor functions never reject the time switch: every time
value other than 0 is treated exactly like time = 1 (the annuity-due factor,
multiplied by 1+rate), and no invalid-configuration error is raised. -/
theorem time_switch_nonzero_treated_as_due (rate nper : ℝ) (time : ℤ) (h : time ≠ 0) :
    future_value_factor rate nper time = future_value_factor rate nper 1 ∧
    present_value_factor rate nper time = present_value_factor rate nper 1 := by
  constructor
  · unfold future_value_factor
    congr 1
    funext res
    rw [if_neg h, if_neg (by decide : (1 : ℤ) ≠ 0)]
  · unfold present_value_factor
    congr 1
    funext a
    congr 1
    funext res
    rw [if_neg h, if_neg (by decide : (1 : ℤ) ≠ 0)]

/-- C3 witness: the amended statement at rate = 1, nper = 1, time = 2. -/
theorem time_switch_nonzero_treated_as_due_witness :
    (2 : ℤ) ≠ 0 ∧
    (future_value_factor 1 1 2 = future_value_factor 1 1 1 ∧
      present_value_factor 1 1 2 = present_value_factor 1 1 1) :=
  ⟨by decide, time_switch_nonzero_treated_as_due 1 1 2 (by decide)⟩

/-- C10: rate = 0 is degenerate at the public annuity interface: both factor
functions, and present_value and future_value built on them, propagate the
unguarded ZeroDivisionError arising inside geometric_series_sum (the ratio
becomes q = 1), instead of returning the arithmetic limit nper. -/
theorem rate_zero_degenerate_at_annuity_interface (nper pmt fv pv : ℝ) (term : ℕ) (time : ℤ) :
    future_value_factor 0 nper time = Except.error PyError.zeroDivisionError ∧
    present_value_factor 0 nper time = Except.error PyError.zeroDivisionError ∧
    present_value pmt 0 term fv time = Except.error PyError.zeroDivisionError ∧
    future_value 0 term pmt pv time = Except.error PyError.zeroDivisionError := by
  refine ⟨fvf_rate_zero nper time, pvf_rate_zero nper time, ?_, ?_⟩
  · unfold present_value
    rw [pvf_rate_zero, py_bind_err]
  · unfold future_value
    rw [fvf_rate_zero, py_bind_err]

/-- C8: for every rate outside {0, -1} and every nper, the ordinary-annuity
present value factor equals the annuity-due factor divided by 1+rate. -/
theorem present_value_factor_due_relation (rate nper : ℝ) (h0 : rate ≠ 0) (h1 : rate ≠ -1) :
    present_value_factor rate nper 0 =
      Except.map (fun v => v / (1 + rate)) (present_value_factor rate nper 1) := by
  have hne : (1 : ℝ) + rate ≠ 0 := by
    intro hc; apply h1; linarith
  have ha : (1 : ℝ) / (1 + rate) ≠ 0 := one_div_ne_zero hne
  have hq : (1 : ℝ) - 1 / (1 + rate) ≠ 0 := by
    intro hc
    have h2 : (1 : ℝ) / (1 + rate) = 1 := by linarith
    rw [div_eq_one_iff_eq hne] at h2
    exact h0 (by linarith)
  unfold present_value_factor geometric_series_sum
  simp only [pydiv_ok 1 (1 + rate) hne, pyrpow_ok _ nper ha, pydiv_ok _ _ hq,
    py_bind_ok, py_map_ok]
  rw [if_true, if_neg (by decide : ¬ (1 : ℤ) = 0)]
  rw [mul_div_cancel_right₀ _ hne]

/-- C8 witness: the relation instantiated at rate = 1, nper = 1. -/
theorem present_value_factor_due_relation_witness :
    ((1 : ℝ) ≠ 0 ∧ (1 : ℝ) ≠ -1) ∧
    present_value_factor 1 1 0 =
      Except.map (fun v => v / (1 + 1)) (present_value_factor 1 1 1) :=
  ⟨⟨by norm_num, by norm_num⟩,
    present_value_factor_due_relation 1 1 (by norm_num) (by norm_num)⟩

/-- C1 counterexample: when the solver hands back a non-converged outcome, each
of internal_rate, discount_rate and xirr still returns the bare last iterate 42
as an ordinary numeric result, identical to what a converged run returning the
same iterate would produce: no named failure and no convergence flag is
surfaced. -/
theorem fsolve_nonconvergence_counterexample :
    internal_rate (fun _ _ => ⟨42, false⟩) [ 100 ] 50 (1 / 10) = 42 ∧
    internal_rate (fun _ _ => ⟨42, false⟩) [ 100 ] 50 (1 / 10) =
      internal_rate (fun _ _ => ⟨42, true⟩) [ 100 ] 50 (1 / 10) ∧
    discount_rate (fun _ _ => ⟨42, false⟩) 700 100 10 0 (1 / 10) = 42 ∧
    xirr (fun _ _ => ⟨42, false⟩) [ "20060101" ] [ -1000 ] = 42 :=
  ⟨rfl, rfl, rfl, rfl⟩

/-- C1 (amended): the three root finders share one uniform policy, but it is
the opposite of the claimed one: each returns the solver's estimate unchanged
as a plain number even when the solver did not converge; fsolve's convergence
status is discarded by the [0] indexing, so no distinct no-convergence outcome
exists. -/
theorem root_finders_return_bare_estimate (o : FsolveOutcome) (h : o.converged = false)
    (cashflows : List ℝ) (initial_investment guess pv pmt fv : ℝ) (nper : ℕ)
    (dates : List String) (xcashflows : List ℝ) :
    internal_rate (fun _ _ => o) cashflows initial_investment guess = o.estimate ∧
    discount_rate (fun _ _ => o) pv pmt nper fv guess = o.estimate ∧
    xirr (fun _ _ => o) dates xcashflows = o.estimate :=
  ⟨rfl, rfl, rfl⟩

/-- C1 witness: the amended statement at the concrete non-converged outcome
with estimate 42. -/
theorem root_finders_return_bare_estimate_witness :
    (FsolveOutcome.mk 42 false).converged = false ∧
    (internal_rate (fun _ _ => FsolveOutcome.mk 42 false) [ 100, 200 ] 50 (1 / 10) =
        (FsolveOutcome.mk 42 false).estimate ∧
      discount_rate (fun _ _ => FsolveOutcome.mk 42 false) 700 100 10 0 (1 / 10) =
        (FsolveOutcome.mk 42 false).estimate ∧
      xirr (fun _ _ => FsolveOutcome.mk 42 false) [ "20060101" ] [ -1000 ] =
        (FsolveOutcome.mk 42 false).estimate) :=
  ⟨rfl, root_finders_return_bare_estimate (FsolveOutcome.mk 42 false) rfl
    [ 100, 200 ] 50 (1 / 10) 700 100 0 10 [ "20060101" ] [ -1000 ]⟩

/-- C6: for every rate other than -1, net_present_value(rate, cashflows,
investment) is the sum over t = 0..n-1 of cashflows[t]/(1+rate)^(t+1), minus
investment: position t is discounted as the end of period t+1, and investment
is subtracted as a positive magnitude. -/
theorem net_present_value_formula (rate : ℝ) (cashflows : List ℝ) (investment : ℝ)
    (h : rate ≠ -1) :
    net_present_value rate cashflows investment =
      Except.ok ((∑ t ∈ Finset.range cashflows.length,
        cashflows.getD t 0 / (1 + rate) ^ (t + 1)) - investment) := by
  have hne : (1 : ℝ) + rate ≠ 0 := fun hc => h (by linarith)
  unfold net_present_value
  have hterms : ((cashflows.enum).map fun tc => pydiv tc.2 ((1 + rate) ^ (tc.1 + 1)))
      = ((cashflows.enum).map fun tc => tc.2 / (1 + rate) ^ (tc.1 + 1)).map
          (Except.ok : ℝ → Py ℝ) := by
    rw [List.map_map]
    exact map_congr_mem _ _ _ fun tc _ => pydiv_ok _ _ (pow_ne_zero _ hne)
  rw [hterms, pysum_map_ok, py_bind_ok,
    sum_map_enum cashflows (fun tc => tc.2 / (1 + rate) ^ (tc.1 + 1))]

/-- C6 witness: the formula instantiated at rate = 1, cashflows = [2, 4],
investment = 0. -/
theorem net_present_value_formula_witness :
    ((1 : ℝ) ≠ -1) ∧
    net_present_value 1 [ 2, 4 ] 0 =
      Except.ok ((∑ t ∈ Finset.range ([ 2, 4 ] : List ℝ).length,
        ([ 2, 4 ] : List ℝ).getD t 0 / (1 + 1) ^ (t + 1)) - 0) :=
  ⟨by norm_num, net_present_value_formula 1 [ 2, 4 ] 0 (by norm_num)⟩

/-- C7: for every rate r other than -1, the residual closure that internal_rate
hands to the solver agrees pointwise with net_present_value(r, cashflows) -
initial_investment, and internal_rate is exactly the solver's estimate for a
zero of that residual from the given guess. -/
theorem internal_rate_residual_refines_npv (cashflows : List ℝ)
    (initial_investment r : ℝ) (fsolve : Fsolve) (guess : ℝ) (h : r ≠ -1) :
    irr_func cashflows initial_investment r =
      Except.map (fun v => v - initial_investment) (net_present_value r cashflows 0) ∧
    internal_rate fsolve cashflows initial_investment guess =
      (fsolve (irr_func cashflows initial_investment) guess).estimate := by
  have hne : (1 : ℝ) + r ≠ 0 := fun hc => h (by linarith)
  refine ⟨?_, rfl⟩
  unfold irr_func net_present_value
  have h1 : ((cashflows.enum).map fun tc => pydiv tc.2 ((1 + r) ^ (1 + tc.1)))
      = ((cashflows.enum).map fun tc => tc.2 / (1 + r) ^ (1 + tc.1)).map
          (Except.ok : ℝ → Py ℝ) := by
    rw [List.map_map]
    exact map_congr_mem _ _ _ fun tc _ => pydiv_ok _ _ (pow_ne_zero _ hne)
  have h2 : ((cashflows.enum).map fun tc => pydiv tc.2 ((1 + r) ^ (tc.1 + 1)))
      = ((cashflows.enum).map fun tc => tc.2 / (1 + r) ^ (tc.1 + 1)).map
          (Except.ok : ℝ → Py ℝ) := by
    rw [List.map_map]
    exact map_congr_mem _ _ _ fun tc _ => pydiv_ok _ _ (pow_ne_zero _ hne)
  rw [h1, h2, pysum_map_ok, pysum_map_ok, py_bind_ok, py_bind_ok, py_map_ok]
  refine congrArg Except.ok ?_
  rw [sum_map_enum cashflows (fun tc => tc.2 / (1 + r) ^ (1 + tc.1)),
    sum_map_enum cashflows (fun tc => tc.2 / (1 + r) ^ (tc.1 + 1)), sub_zero]
  congr 1
  apply Finset.sum_congr rfl
  intro t _
  show cashflows.getD t 0 / (1 + r) ^ (1 + t) = cashflows.getD t 0 / (1 + r) ^ (t + 1)
  rw [add_comm 1 t]

/-- C7 witness: the refinement instantiated at r = 1, cashflows = [2, 4],
initial_investment = 5 and a concrete solver outcome. -/
theorem internal_rate_residual_refines_npv_witness :
    ((1 : ℝ) ≠ -1) ∧
    (irr_func [ 2, 4 ] 5 1 =
        Except.map (fun v => v - 5) (net_present_value 1 [ 2, 4 ] 0) ∧
      internal_rate (fun _ _ => ⟨7, true⟩) [ 2, 4 ] 5 (1 / 10) =
        ((fun _ _ => (⟨7, true⟩ : FsolveOutcome)) ([ 2, 4 ] : List ℝ) ((1 : ℝ) / 10)).estimate) :=
  ⟨by norm_num,
    internal_rate_residual_refines_npv [ 2, 4 ] 5 1 (fun _ _ => ⟨7, true⟩) (1 / 10) (by norm_num)⟩

/-- Element t of the pmts list built by macaulay_duration, for t < term:
the coupon par_value*par_rate, plus the par redemption at the final index. -/
theorem macaulay_pmts_getD (par_value par_rate : ℝ) (term : ℕ) (ht : 1 ≤ term)
    (t : ℕ) (h : t < term) :
    (macaulay_pmts par_value par_rate term).getD t 0 =
      if t + 1 = term then par_value * par_rate + par_value else par_value * par_rate := by
  unfold macaulay_pmts
  by_cases hc : t + 1 = term
  · rw [if_pos hc]
    have hlen : t = (List.replicate (term - 1) (par_value * par_rate)).length := by
      rw [List.length_replicate]; omega
    rw [hlen, getD_append_last]
  · rw [if_neg hc,
      getD_append_lt _ _ t (by rw [List.length_replicate]; omega),
      getD_replicate _ _ t (by omega)]

/-- Length of the pmts list built by macaulay_duration. -/
theorem macaulay_pmts_length (par_value par_rate : ℝ) (term : ℕ) (ht : 1 ≤ term) :
    (macaulay_pmts par_value par_rate term).length = term := by
  unfold macaulay_pmts
  rw [List.length_append, List.length_replicate]
  simp
  omega

/-- C9: for price other than 0, ytm other than -1 and term at least 1,
macaulay_duration equals the time-weighted present value of the internally
built coupon schedule divided by price: the sum over t of (t+1) times
pmt/(1+ytm)^(t+1), with pmt the coupon for all but the last period and coupon
plus par at the last. -/
theorem macaulay_duration_formula (price ytm par_value par_rate : ℝ) (term : ℕ)
    (hp : price ≠ 0) (hy : ytm ≠ -1) (ht : 1 ≤ term) :
    macaulay_duration price ytm par_value par_rate term =
      Except.ok ((∑ t ∈ Finset.range term,
        ((t + 1 : ℕ) : ℝ) *
          ((if t + 1 = term then par_value * par_rate + par_value
            else par_value * par_rate) / (1 + ytm) ^ (t + 1))) / price) := by
  have hne : (1 : ℝ) + ytm ≠ 0 := fun hc => hy (by linarith)
  unfold macaulay_duration
  have h1 : (((macaulay_pmts par_value par_rate term).enum).map fun tp =>
        pydiv tp.2 ((1 + ytm) ^ (tp.1 + 1)) >>= fun q =>
          Except.ok (((tp.1 + 1 : ℕ) : ℝ) * q))
      = (((macaulay_pmts par_value par_rate term).enum).map fun tp =>
          ((tp.1 + 1 : ℕ) : ℝ) * (tp.2 / (1 + ytm) ^ (tp.1 + 1))).map
            (Except.ok : ℝ → Py ℝ) := by
    rw [List.map_map]
    apply map_congr_mem
    intro tp _
    rw [pydiv_ok _ _ (pow_ne_zero _ hne), py_bind_ok]
    rfl
  rw [h1, pysum_map_ok, py_bind_ok,
    sum_map_enum _ (fun tp => ((tp.1 + 1 : ℕ) : ℝ) * (tp.2 / (1 + ytm) ^ (tp.1 + 1))),
    macaulay_pmts_length par_value par_rate term ht, pydiv_ok _ _ hp]
  refine congrArg Except.ok ?_
  refine congrArg (fun z => z / price) ?_
  apply Finset.sum_congr rfl
  intro t htr
  have htl : t < term := Finset.mem_range.mp htr
  show ((t + 1 : ℕ) : ℝ) *
      ((macaulay_pmts par_value par_rate term).getD t 0 / (1 + ytm) ^ (t + 1)) = _
  rw [macaulay_pmts_getD par_value par_rate term ht t htl]

/-- C9 witness: the formula instantiated at the specification's concrete case
price = 1000, ytm = 1/20, par_value = 1000, par_rate = 1/20, term = 4. -/
theorem macaulay_duration_formula_witness :
    ((1000 : ℝ) ≠ 0 ∧ (1 / 20 : ℝ) ≠ -1 ∧ 1 ≤ 4) ∧
    macaulay_duration 1000 (1 / 20) 1000 (1 / 20) 4 =
      Except.ok ((∑ t ∈ Finset.range 4,
        ((t + 1 : ℕ) : ℝ) *
          ((if t + 1 = 4 then 1000 * (1 / 20) + 1000
            else 1000 * (1 / 20)) / (1 + 1 / 20) ^ (t + 1))) / 1000) :=
  ⟨⟨by norm_num, by norm_num, by norm_num⟩,
    macaulay_duration_formula 1000 (1 / 20) 1000 (1 / 20) 4
      (by norm_num) (by norm_num) (by norm_num)⟩

/-- C4 counterexample: with two valid dates and a single cashflow (mismatched
lengths), xnpv silently truncates via zip and returns the numeric value -100
instead of failing with an invalid-input error. -/
theorem xnpv_mismatched_lengths_counterexample :
    xnpv (1 / 10) [ "20060101", "20060102" ] [ -100 ] = Except.ok (-100) := by
  have hmap : ([ "20060101", "20060102" ] : List String).mapM parseDatePy =
      Except.ok [ ⟨2006, 1, 1⟩, ⟨2006, 1, 2⟩ ] := rfl
  unfold xnpv
  rw [hmap, py_bind_ok, pyrpow_ok _ _ (by norm_num : (1 : ℝ) + 1 / 10 ≠ 0), py_bind_ok]
  show Except.ok ((0 : ℝ) + -100) = Except.ok (-100)
  rw [zero_add]

/-- C4 (amended): mismatched lengths are not rejected: zip truncates to the
shorter list, so with any parseable dates and a single cashflow c0 the result
is the ordinary numeric value c0; only an empty cashflows list fails, and it
does so with a low-level IndexError from the cashflows[0] access, not with a
named invalid-input error. -/
theorem xnpv_mismatch_truncates (rate : ℝ) (dates : List String) (c0 : ℝ)
    (hrate : -1 < rate) (hdates : ∀ s ∈ dates, (strptimeYmd s).isSome) :
    xnpv rate dates [ c0 ] = Except.ok c0 ∧
    xnpv rate dates [] = Except.error PyError.indexError := by
  have hmap : dates.mapM parseDatePy = Except.ok (dates.map parsedDate) := by
    apply mapM_ok_of_forall
    intro s hs
    obtain ⟨d, hd⟩ := Option.isSome_iff_exists.mp (hdates s hs)
    unfold parseDatePy parsedDate
    rw [hd]
    rfl
  have hrr : (1 : ℝ) + rate ≠ 0 := by linarith
  constructor
  · unfold xnpv
    rw [hmap, py_bind_ok, pyrpow_ok _ _ hrr, py_bind_ok]
    show Except.ok ((0 : ℝ) + c0) = Except.ok c0
    rw [zero_add]
  · unfold xnpv
    rw [hmap, py_bind_ok, pyrpow_ok _ _ hrr, py_bind_ok]
    rfl

/-- C4 witness: the amended statement at rate = 1/10, one valid date, c0 = 5. -/
theorem xnpv_mismatch_truncates_witness :
    (-1 < (1 : ℝ) / 10 ∧ ∀ s ∈ ([ "20060101" ] : List String), (strptimeYmd s).isSome) ∧
    (xnpv (1 / 10) [ "20060101" ] [ 5 ] = Except.ok 5 ∧
      xnpv (1 / 10) [ "20060101" ] [] = Except.error PyError.indexError) :=
  ⟨⟨by norm_num, by decide⟩,
    xnpv_mismatch_truncates (1 / 10) [ "20060101" ] 5 (by norm_num) (by decide)⟩

/-- C5: for every annual rate above -1 and every equal-length, non-empty pair of
well-formed YYYYMMDD dates and cashflows, xnpv(rate, dates, cashflows) equals
cashflows[0] undiscounted plus the sum over i of cashflows[i]/(1+r)^(d i),
where d i is the elapsed day count from dates[0] to dates[i] and
r = (1+rate)^(1/365) - 1 is the exact daily-compounding rate. -/
theorem xnpv_formula_correct (rate : ℝ) (dates : List String) (cashflows : List ℝ)
    (hrate : -1 < rate) (hlen : dates.length = cashflows.length) (hne : dates ≠ [])
    (hdates : ∀ s ∈ dates, (strptimeYmd s).isSome) :
    xnpv rate dates cashflows =
      Except.ok (cashflows.getD 0 0 +
        ∑ i ∈ Finset.range (cashflows.length - 1),
          cashflows.getD (i + 1) 0 /
            (1 + dailyRate rate) ^ (elapsedDays dates (i + 1))) := by
  have hpos : (0 : ℝ) < 1 + rate := by linarith
  have hbne : ((1 + rate) ^ ((1 : ℝ) / 365) : ℝ) ≠ 0 :=
    ne_of_gt (Real.rpow_pos_of_pos hpos _)
  have hmap : dates.mapM parseDatePy = Except.ok (dates.map parsedDate) := by
    apply mapM_ok_of_forall
    intro s hs
    obtain ⟨d, hd⟩ := Option.isSome_iff_exists.mp (hdates s hs)
    unfold parseDatePy parsedDate
    rw [hd]
    rfl
  cases dates with
  | nil => exact absurd rfl hne
  | cons s0 rest =>
  cases cashflows with
  | nil => simp at hlen
  | cons c0 cs =>
  have hlen2 : rest.length = cs.length := by simpa using hlen
  unfold xnpv
  simp only [hmap, pyrpow_ok _ _ (ne_of_gt hpos), py_bind_ok]
  rw [show (1 : ℝ) + ((1 + rate) ^ ((1 : ℝ) / 365) - 1) = (1 + rate) ^ ((1 : ℝ) / 365) from
    by ring]
  have hterms : ∀ (L : List (ℝ × ℤ)), (L.map fun cd =>
        pyzpow ((1 + rate) ^ ((1 : ℝ) / 365)) cd.2 >>= fun p => pydiv cd.1 p)
      = (L.map fun cd => cd.1 / ((1 + rate) ^ ((1 : ℝ) / 365)) ^ cd.2).map
          (Except.ok : ℝ → Py ℝ) := by
    intro L
    rw [List.map_map]
    apply map_congr_mem
    intro cd _
    rw [pyzpow_ok _ _ hbne, py_bind_ok, pydiv_ok _ _ (zpow_ne_zero _ hbne)]
    rfl
  rw [hterms, pysum_map_ok, py_bind_ok]
  have hfin : ((((c0 :: cs).drop 1).zip (xnpvDelta ((s0 :: rest).map parsedDate))).map
        fun cd => cd.1 / ((1 + rate) ^ ((1 : ℝ) / 365)) ^ cd.2).sum + c0
      = (c0 :: cs).getD 0 0 +
        ∑ i ∈ Finset.range ((c0 :: cs).length - 1),
          (c0 :: cs).getD (i + 1) 0 /
            (1 + dailyRate rate) ^ (elapsedDays (s0 :: rest) (i + 1)) := by
    have hd1 : xnpvDelta ((s0 :: rest).map parsedDate)
        = rest.map ((fun d => toOrdinal d - toOrdinal (parsedDate s0)) ∘ parsedDate) := by
      show (rest.map parsedDate).map (fun d => toOrdinal d - toOrdinal (parsedDate s0)) = _
      rw [List.map_map]
    rw [hd1]
    show ((cs.zip (rest.map ((fun d => toOrdinal d - toOrdinal (parsedDate s0)) ∘ parsedDate))).map
        fun cd => cd.1 / ((1 + rate) ^ ((1 : ℝ) / 365)) ^ cd.2).sum + c0 = _
    rw [sum_map_zip _ cs _ (by rw [List.length_map]; omega), add_comm,
      show (c0 :: cs).length - 1 = cs.length from by simp]
    refine congrArg₂ (fun x y => x + y) rfl ?_
    apply Finset.sum_congr rfl
    intro i hir
    have hi : i < cs.length := Finset.mem_range.mp hir
    have hirest : i < rest.length := by omega
    show cs.getD i 0 / ((1 + rate) ^ ((1 : ℝ) / 365)) ^
        ((rest.map ((fun d => toOrdinal d - toOrdinal (parsedDate s0)) ∘ parsedDate)).getD i 0)
      = (c0 :: cs).getD (i + 1) 0 /
          (1 + dailyRate rate) ^ (elapsedDays (s0 :: rest) (i + 1))
    rw [getD_map_lt _ rest i hirest 0 ""]
    unfold elapsedDays dailyRate
    rw [show (1 : ℝ) + ((1 + rate) ^ ((1 : ℝ) / 365) - 1) = (1 + rate) ^ ((1 : ℝ) / 365) from
      by ring]
    rfl
  exact congrArg Except.ok hfin

/-- C5 witness: the formula at the specification's concrete example
xnpv(0.12, ['20060101','20070303','20070704','20081012','20091225'],
[-1000,100,195,350,800]). -/
theorem xnpv_formula_correct_witness :
    (-1 < (12 / 100 : ℝ) ∧
      ([ "20060101", "20070303", "20070704", "20081012", "20091225" ] : List String).length =
        ([ -1000, 100, 195, 350, 800 ] : List ℝ).length ∧
      ([ "20060101", "20070303", "20070704", "20081012", "20091225" ] : List String) ≠ [] ∧
      ∀ s ∈ ([ "20060101", "20070303", "20070704", "20081012", "20091225" ] : List String),
        (strptimeYmd s).isSome) ∧
    xnpv (12 / 100) [ "20060101", "20070303", "20070704", "20081012", "20091225" ]
        [ -1000, 100, 195, 350, 800 ] =
      Except.ok (([ -1000, 100, 195, 350, 800 ] : List ℝ).getD 0 0 +
        ∑ i ∈ Finset.range (([ -1000, 100, 195, 350, 800 ] : List ℝ).length - 1),
          ([ -1000, 100, 195, 350, 800 ] : List ℝ).getD (i + 1) 0 /
            (1 + dailyRate (12 / 100)) ^
              (elapsedDays [ "20060101", "20070303", "20070704", "20081012", "20091225" ]
                (i + 1))) :=
  ⟨⟨by norm_num, rfl, List.cons_ne_nil _ _, by decide⟩,
    xnpv_formula_correct (12 / 100)
      [ "20060101", "20070303", "20070704", "20081012", "20091225" ]
      [ -1000, 100, 195, 350, 800 ]
      (by norm_num) rfl (List.cons_ne_nil _ _) (by decide)⟩
